import Mathlib

/-!
Shallow embedding of the distributed-training orchestration core of
`train.py` (Open-Sora minimal DiT training script), together with proofs
about its helper functions (`update_ema`, `all_reduce_mean`,
`save_checkpoints`) and its accumulation / optimizer-step / checkpoint
scheduling loop (`main`).

Tensors that the claims treat as scalars (accumulated loss, gradients,
parameters) are embedded as rationals; per-worker collections as lists
indexed by rank; the per-worker sequence of side-effecting calls in
`save_checkpoints` as a list of operations.
-/

namespace OpenSoraTrain

/-- Embedding of `update_ema` (train.py lines 51-58): for each pair of
corresponding parameters, `ema_p.mul_(decay).add_(p.data, alpha=1-decay)`,
i.e. the new EMA parameter is `ema_p * decay + p * (1 - decay)`.
Parameters of a model are embedded as a list of rationals; `zip`
mirrors Python's `zip` over the two parameter iterators. -/
def update_ema (emaPs ps : List ℚ) (decay : ℚ) : List ℚ :=
  (emaPs.zip ps).map fun q => q.1 * decay + q.2 * (1 - decay)

/-- Environment for the frame properties of `update_ema`: the EMA model's
parameters, the live model's parameters, and the autograd tape (the list of
operations recorded for gradient computation during this call). -/
structure EmaEnv where
  emaParams : List ℚ
  modelParams : List ℚ
  gradTape : List ℚ
deriving DecidableEq, Repr

/-- Embedding of the call `update_ema(ema_model, model, decay)` as a
transformer of the whole environment: the body (train.py lines 51-58) is
decorated `@torch.no_grad()` so it records nothing on the autograd tape,
and its only in-place mutations (`mul_`, `add_`) target `ema_p`; `p.data`
is only read. -/
def update_ema_env (env : EmaEnv) (decay : ℚ) : EmaEnv :=
  { env with emaParams := update_ema env.emaParams env.modelParams decay }

/-- Embedding of `all_reduce_mean` (train.py lines 69-72): the per-worker
scalars (one list entry per rank of the *default* process group, i.e. the
whole world) are summed by `dist.all_reduce(op=SUM)`, which leaves the
global sum on every worker, and each worker then divides in place by
`dist.get_world_size()`, the full world size. -/
def all_reduce_mean (losses : List ℚ) : List ℚ :=
  losses.map fun _ => losses.sum / (losses.length : ℚ)

/-- Definition following the spec's words (for comparison with
`all_reduce_mean`): the loss each worker would report if the accumulated
scalar were mean-reduced across the worker's *sharding group only*, not
across sequence-parallel peers.  The grouping follows the spec's topology
description (spec 4.2; the `ZeroSeqParallelPlugin` source is not part of
this repository): sequence-parallel groups are contiguous rank blocks of
size `spSize`, and sharding groups are orthogonal to them, so ranks `r`
and `q` share a sharding group exactly when `q % spSize = r % spSize`. -/
def spec_sharding_group_mean (spSize : ℕ) (losses : List ℚ) : List ℚ :=
  (List.range losses.length).map fun r =>
    let group := (List.range losses.length).filter fun q => q % spSize == r % spSize
    ((group.map fun q => losses.getD q 0).sum) / (group.length : ℚ)

/-- Per-worker state of the training loop of `main` (train.py lines
181-243), restricted to the quantities the scheduling claims are about:
the accumulated gradient (`booster.backward` adds each micro-batch's
gradient; `opt.zero_grad()` resets it), the accumulated loss scalar
`total_loss`, the list of gradient values consumed by successive
`opt.step()` calls, the list of accumulated scalars handed to
`all_reduce_mean` for reporting at successive optimizer steps, and the
counts of `opt.step()`, `lr_scheduler.step()` and `update_ema` calls. -/
@[ext]
structure TrainState where
  grads : ℚ
  totalLoss : ℚ
  applied : List ℚ
  reported : List ℚ
  optSteps : ℕ
  lrSteps : ℕ
  emaUpdates : ℕ
deriving DecidableEq, Repr

/-- One iteration of the inner loop of `main` (train.py lines 189-230) for
micro-batch index `step` (0-based within the epoch, as produced by
`enumerate(dataloader)`), with `loss` the micro-batch's mean loss before
the division by `accumulation_steps` and `grad` its gradient contribution:
`loss = loss_dict["loss"].mean() / accumulation_steps` is added to
`total_loss`, `booster.backward` accumulates the gradient, and if
`(step + 1) % accumulation_steps == 0` then `opt.step()` consumes the
accumulated gradient, `opt.zero_grad()` resets it, `lr_scheduler.step()`
and `update_ema(ema, model)` each run once, the accumulated scalar is
reduced and reported, and `total_loss.zero_()` resets it. -/
def microStep (accum step : ℕ) (loss grad : ℚ) (s : TrainState) : TrainState :=
  if (step + 1) % accum = 0 then
    { grads := 0
      totalLoss := 0
      applied := s.applied ++ [s.grads + grad]
      reported := s.reported ++ [s.totalLoss + loss / (accum : ℚ)]
      optSteps := s.optSteps + 1
      lrSteps := s.lrSteps + 1
      emaUpdates := s.emaUpdates + 1 }
  else
    { s with
      totalLoss := s.totalLoss + loss / (accum : ℚ)
      grads := s.grads + grad }

/-- Run the inner loop over a list of micro-batches (each a pair of
mean loss and gradient contribution), starting at micro-batch index `i`. -/
def runFrom (accum : ℕ) : ℕ → List (ℚ × ℚ) → TrainState → TrainState
  | _, [], s => s
  | i, x :: xs, s => runFrom accum (i + 1) xs (microStep accum i x.1 x.2 s)

/-- One epoch of `main` (train.py lines 181-243): `total_loss` is
re-initialized to a fresh zero tensor at the start of the epoch (line 188),
the micro-batch index restarts from 0 (`enumerate`), and gradients are
*not* reset at the epoch boundary. -/
def runEpoch (accum : ℕ) (items : List (ℚ × ℚ)) (s : TrainState) : TrainState :=
  runFrom accum 0 items { s with totalLoss := 0 }

/-- Projection of the training-loop state onto everything except the EMA
update counter: used to state that the rest of training never reads the
EMA shadow state. -/
def dropEma (s : TrainState) : ℚ × ℚ × List ℚ × List ℚ × ℕ × ℕ :=
  (s.grads, s.totalLoss, s.applied, s.reported, s.optSteps, s.lrSteps)

/-- The side-effecting operations a single worker performs inside
`save_checkpoints` (train.py lines 75-84), in order.  `saveModel` and
`saveOptimizer` carry the `shard` flag passed to the booster call. -/
inductive CkOp where
  | makedirsSavePath : CkOp
  | saveModel : Bool → CkOp
  | saveOptimizer : Bool → CkOp
  | saveEmaCpu : CkOp
  | barrier : CkOp
deriving DecidableEq, Repr

/-- Embedding of `save_checkpoints(booster, model, optimizer, ema,
save_path, coordinator)` (train.py lines 75-84) as the ordered list of
operations the worker performs: `os.makedirs(save_path, exist_ok=True)`,
`booster.save_model(model, save_path/"model", shard=False)`,
`booster.save_optimizer(optimizer, save_path/"optimizer", shard=True)`,
then only if `coordinator.is_master()` the EMA state dict is moved to CPU
and written with `torch.save` to `save_path/"ema.pt"`, and finally
`dist.barrier()`.  All writes target `save_path` itself. -/
def save_checkpoints (isMaster : Bool) : List CkOp :=
  [CkOp.makedirsSavePath, CkOp.saveModel false, CkOp.saveOptimizer true] ++
    (if isMaster then [CkOp.saveEmaCpu] else []) ++ [CkOp.barrier]

/-- The validity check of spec 3 ("a checkpoint is valid for restore only
if all shard files for the recorded sharding-group size are present"): the
checkpoint directory for the tag passes if the model file, the optimizer
shard files and the EMA file have all been written, where `executed` is
the prefix of the save operations that ran before a crash. -/
def allShardFilesPresent (executed : List CkOp) : Bool :=
  (executed.any fun op => match op with | CkOp.saveModel _ => true | _ => false) &&
  (executed.any fun op => match op with | CkOp.saveOptimizer _ => true | _ => false) &&
  (executed.any fun op => match op with | CkOp.saveEmaCpu => true | _ => false)

/-- Categories of training state a checkpoint could persist. -/
inductive PersistKind where
  | modelState
  | optimizerState
  | emaState
  | globalStep
  | epochCounter
  | lrSchedulerState
deriving DecidableEq, Repr

/-- What `save_checkpoints` actually persists, read off its operation
list: each write operation contributes its state category. -/
def persistedKinds (isMaster : Bool) : List PersistKind :=
  (save_checkpoints isMaster).filterMap fun op =>
    match op with
    | CkOp.saveModel _ => some PersistKind.modelState
    | CkOp.saveOptimizer _ => some PersistKind.optimizerState
    | CkOp.saveEmaCpu => some PersistKind.emaState
    | _ => none

/-- Training-wide state right after a restore at startup. -/
structure RestartState where
  firstEpoch : ℕ
  lrSchedulerPosition : ℕ
  modelRestored : Bool
  optimizerRestored : Bool
deriving DecidableEq, Repr

/-- Embedding of the restore path of `main` (train.py lines 160-181): the
learning-rate scheduler is constructed fresh by `CosineAnnealingLR(opt,
args.epochs * len(dataloader) // args.accumulation_steps)` (position 0),
`booster.load_model` / `booster.load_optimizer` run only when the
corresponding `--load_model` / `--load_optimizer` argument is given and
restore only model and optimizer tensors, and the epoch loop is
`for epoch in range(args.epochs)`, starting at 0.  No step counter or
scheduler position is read from the checkpoint. -/
def mainRestart (loadModel loadOptimizer : Bool) : RestartState :=
  { firstEpoch := 0
    lrSchedulerPosition := 0
    modelRestored := loadModel
    optimizerRestored := loadOptimizer }

/-- Embedding of the optimizer-step condition of `main` (train.py line
212): `(step + 1) % args.accumulation_steps == 0`. -/
def optimizer_step_fires (accum step : ℕ) : Bool :=
  (step + 1) % accum == 0

/-- Embedding of the checkpoint condition of `main` (train.py lines
233-236): `args.save_interval > 0 and ((step + 1) % (args.save_interval *
args.accumulation_steps) == 0 or (step + 1) == len(dataloader))`. -/
def checkpoint_fires (saveInterval accum numBatches step : ℕ) : Bool :=
  decide (0 < saveInterval) &&
    ((step + 1) % (saveInterval * accum) == 0 || step + 1 == numBatches)

/-! Theorems about checkpoint saving (claims C4, C5, C6, C7). -/

/-- C4 counterexample: a crash on the master worker after all its local
writes but before the barrier (executing exactly the first four operations
of `save_checkpoints`) leaves the final checkpoint directory with every
file present, so it passes the all-shard-files-present validity check even
though the barrier never ran — refuting the claim that such a crash leaves
no directory passing the check. -/
theorem save_crash_passes_validity_check :
    CkOp.barrier ∉ (save_checkpoints true).take 4 ∧
    allShardFilesPresent ((save_checkpoints true).take 4) = true := by
  decide

/-- C4 amended: `save_checkpoints` writes the model file, the optimizer
shards and (on the master) the EMA file directly into the final checkpoint
directory — its operation trace is exactly makedirs-on-the-final-path,
the three writes, then the barrier, with no temporary location or atomic
rename — so a crash after the local writes but before the barrier leaves a
directory at the final path that passes the validity check. -/
theorem save_checkpoints_not_atomic :
    save_checkpoints true =
      [CkOp.makedirsSavePath, CkOp.saveModel false, CkOp.saveOptimizer true,
        CkOp.saveEmaCpu, CkOp.barrier] ∧
    allShardFilesPresent ((save_checkpoints true).take 4) = true ∧
    CkOp.barrier ∉ (save_checkpoints true).take 4 := by
  decide

/-- C5 counterexample: the model is never saved with `shard=True`; the one
model save call in `save_checkpoints` passes `shard=False`, refuting the
claim that the checkpoint contains sharded parameter files written by
every worker. -/
theorem model_saved_unsharded :
    CkOp.saveModel true ∉ save_checkpoints true ∧
    CkOp.saveModel false ∈ save_checkpoints true := by
  decide

/-- C5 amended: a saved checkpoint contains an *unsharded* model file
(`booster.save_model` with `shard=False`), sharded optimizer-state files
(`booster.save_optimizer` with `shard=True`), and exactly one unsharded
EMA file, written only by the designated master worker. -/
theorem checkpoint_contents (isMaster : Bool) :
    CkOp.saveModel false ∈ save_checkpoints isMaster ∧
    CkOp.saveOptimizer true ∈ save_checkpoints isMaster ∧
    (save_checkpoints isMaster).count CkOp.saveEmaCpu =
      (if isMaster then 1 else 0) := by
  cases isMaster <;> decide

/-- C6: on every worker (master or not), the barrier is the last operation
of `save_checkpoints` and occurs exactly once, so it is issued only after
all of that worker's local writes have completed and is never interleaved
between them. -/
theorem barrier_is_last (isMaster : Bool) :
    (save_checkpoints isMaster).getLast? = some CkOp.barrier ∧
    (save_checkpoints isMaster).count CkOp.barrier = 1 := by
  cases isMaster <;> decide

/-- C7: a checkpoint persists only model state, optimizer state and EMA
state — never the global step, the epoch counter or the learning-rate
scheduler position — and on restore (`--load_model` / `--load_optimizer`)
the epoch count and the learning-rate scheduler position start again from
zero, whichever components were restored. -/
theorem checkpoint_persists_no_counters
    (isMaster loadModel loadOptimizer : Bool) :
    persistedKinds isMaster =
      [PersistKind.modelState, PersistKind.optimizerState] ++
        (if isMaster then [PersistKind.emaState] else []) ∧
    PersistKind.globalStep ∉ persistedKinds isMaster ∧
    PersistKind.epochCounter ∉ persistedKinds isMaster ∧
    PersistKind.lrSchedulerState ∉ persistedKinds isMaster ∧
    (mainRestart loadModel loadOptimizer).firstEpoch = 0 ∧
    (mainRestart loadModel loadOptimizer).lrSchedulerPosition = 0 ∧
    (mainRestart loadModel loadOptimizer).modelRestored = loadModel ∧
    (mainRestart loadModel loadOptimizer).optimizerRestored = loadOptimizer := by
  cases isMaster <;> cases loadModel <;> cases loadOptimizer <;> decide

/-! Theorems about the checkpoint trigger condition (claim C8). -/

/-- C8: whenever the checkpoint condition of `main` fires, either the
interval branch holds — `(step+1)` is a multiple of
`save_interval * accumulation_steps`, which forces the optimizer-step
condition `(step+1) % accumulation_steps == 0`, so the save happens
immediately after an optimizer step — or `step+1` is the final micro-batch
of the epoch; the interval branch can never fire mid-accumulation-window. -/
theorem checkpoint_only_after_step_or_epoch_end
    (saveInterval accum numBatches step : ℕ)
    (h : checkpoint_fires saveInterval accum numBatches step = true) :
    0 < saveInterval ∧
      (((step + 1) % (saveInterval * accum) = 0 ∧
          optimizer_step_fires accum step = true) ∨
        step + 1 = numBatches) := by
  simp only [checkpoint_fires, Bool.and_eq_true, Bool.or_eq_true,
    decide_eq_true_eq, beq_iff_eq] at h
  refine ⟨h.1, ?_⟩
  rcases h.2 with hint | hfin
  · left
    refine ⟨hint, ?_⟩
    have hd : saveInterval * accum ∣ step + 1 := Nat.dvd_of_mod_eq_zero hint
    obtain ⟨c, hc⟩ := hd
    have : (step + 1) % accum = 0 := by
      rw [hc, mul_comm saveInterval accum, mul_assoc]
      exact Nat.mul_mod_right accum (saveInterval * c)
    simp [optimizer_step_fires, this]
  · right
    exact hfin

/-- C8 witness: a concrete firing of the checkpoint condition
(save interval 1, accumulation 2, 10 micro-batches, step index 1). -/
theorem checkpoint_only_after_step_or_epoch_end_witness :
    checkpoint_fires 1 2 10 1 = true ∧
    (0 < 1 ∧
      (((1 + 1) % (1 * 2) = 0 ∧ optimizer_step_fires 2 1 = true) ∨
        1 + 1 = 10)) :=
  ⟨by decide, checkpoint_only_after_step_or_epoch_end 1 2 10 1 (by decide)⟩

/-! Theorems about the EMA update (claims C2, C9). -/

lemma update_ema_eq_zipWith (emaPs ps : List ℚ) (decay : ℚ) :
    update_ema emaPs ps decay =
      List.zipWith (fun e p => decay * e + (1 - decay) * p) emaPs ps := by
  induction emaPs generalizing ps with
  | nil => simp [update_ema]
  | cons a l ih =>
    cases ps with
    | nil => simp [update_ema]
    | cons b m =>
      simp only [update_ema, List.zip_cons_cons, List.map_cons,
        List.zipWith_cons_cons, List.cons.injEq] at *
      exact ⟨by ring, ih m⟩

lemma update_ema_decay_zero (emaPs ps : List ℚ)
    (h : emaPs.length = ps.length) :
    update_ema emaPs ps 0 = ps := by
  induction emaPs generalizing ps with
  | nil =>
    cases ps with
    | nil => rfl
    | cons b m => simp at h
  | cons a l ih =>
    cases ps with
    | nil => simp at h
    | cons b m =>
      have h2 : l.length = m.length := by simpa using h
      simp only [update_ema, List.zip_cons_cons, List.map_cons,
        List.cons.injEq]
      exact ⟨by ring, ih m h2⟩

lemma update_ema_decay_one (emaPs ps : List ℚ)
    (h : emaPs.length = ps.length) :
    update_ema emaPs ps 1 = emaPs := by
  induction emaPs generalizing ps with
  | nil => rfl
  | cons a l ih =>
    cases ps with
    | nil => simp at h
    | cons b m =>
      have h2 : l.length = m.length := by simpa using h
      simp only [update_ema, List.zip_cons_cons, List.map_cons,
        List.cons.injEq]
      exact ⟨by ring, ih m h2⟩

/-- C2: for models with equal parameter lists, `update_ema` sets each EMA
parameter elementwise to `decay * ema_param + (1 - decay) * param`; in
particular `decay = 0` makes every EMA parameter equal the corresponding
live-model parameter, and `decay = 1` leaves every EMA parameter
unchanged. -/
theorem update_ema_rule (emaPs ps : List ℚ) (decay : ℚ)
    (h : emaPs.length = ps.length) :
    update_ema emaPs ps decay =
      List.zipWith (fun e p => decay * e + (1 - decay) * p) emaPs ps ∧
    update_ema emaPs ps 0 = ps ∧
    update_ema emaPs ps 1 = emaPs :=
  ⟨update_ema_eq_zipWith emaPs ps decay,
    update_ema_decay_zero emaPs ps h,
    update_ema_decay_one emaPs ps h⟩

/-- C2 witness: the EMA rule evaluated on a concrete two-parameter model
with decay 1/2. -/
theorem update_ema_rule_witness :
    ([(1 : ℚ), 2]).length = ([(5 : ℚ), 7] : List ℚ).length ∧
    (update_ema [(1 : ℚ), 2] [(5 : ℚ), 7] (1 / 2) =
        List.zipWith (fun e p => (1 / 2 : ℚ) * e + (1 - 1 / 2) * p)
          [(1 : ℚ), 2] [(5 : ℚ), 7] ∧
      update_ema [(1 : ℚ), 2] [(5 : ℚ), 7] 0 = [(5 : ℚ), 7] ∧
      update_ema [(1 : ℚ), 2] [(5 : ℚ), 7] 1 = [(1 : ℚ), 2]) :=
  ⟨rfl, update_ema_rule [(1 : ℚ), 2] [(5 : ℚ), 7] (1 / 2) rfl⟩

lemma dropEma_microStep (accum i : ℕ) (loss grad : ℚ) (s t : TrainState)
    (h : dropEma s = dropEma t) :
    dropEma (microStep accum i loss grad s) =
      dropEma (microStep accum i loss grad t) := by
  simp only [dropEma, Prod.mk.injEq] at h
  obtain ⟨h1, h2, h3, h4, h5, h6⟩ := h
  by_cases hc : (i + 1) % accum = 0 <;>
    simp [microStep, hc, dropEma, h1, h2, h3, h4, h5, h6]

lemma dropEma_runFrom (accum : ℕ) (xs : List (ℚ × ℚ)) :
    ∀ (i : ℕ) (s t : TrainState), dropEma s = dropEma t →
      dropEma (runFrom accum i xs s) = dropEma (runFrom accum i xs t) := by
  induction xs with
  | nil => intro i s t h; simpa [runFrom] using h
  | cons x xs ih =>
    intro i s t h
    exact ih (i + 1) _ _ (dropEma_microStep accum i x.1 x.2 s t h)

/-- C9: calling `update_ema` leaves the live model's parameters unchanged
and records nothing on the autograd tape (the body runs under
`@torch.no_grad()` and mutates only the EMA parameters); moreover the rest
of the training loop never reads the EMA state — two runs of the loop from
states that agree on everything except the EMA update counter agree on
gradients, accumulated loss, applied optimizer steps, reported losses and
the optimizer / scheduler counters — so updating the EMA can never alter
subsequent training steps of the live model. -/
theorem update_ema_frame :
    (∀ (env : EmaEnv) (decay : ℚ),
      (update_ema_env env decay).modelParams = env.modelParams ∧
      (update_ema_env env decay).gradTape = env.gradTape) ∧
    (∀ (accum i : ℕ) (xs : List (ℚ × ℚ)) (s t : TrainState),
      dropEma s = dropEma t →
      dropEma (runFrom accum i xs s) = dropEma (runFrom accum i xs t)) :=
  ⟨fun _ _ => ⟨rfl, rfl⟩, fun accum i xs s t h => dropEma_runFrom accum xs i s t h⟩

/-- C9 witness: the frame property applied to a concrete environment and
to two concrete loop states differing only in the EMA update counter. -/
theorem update_ema_frame_witness :
    ((update_ema_env ⟨[1], [2], [3]⟩ (1 / 2)).modelParams = [(2 : ℚ)] ∧
      (update_ema_env ⟨[1], [2], [3]⟩ (1 / 2)).gradTape = [(3 : ℚ)]) ∧
    (dropEma ⟨0, 0, [], [], 0, 0, 0⟩ = dropEma ⟨0, 0, [], [], 0, 0, 5⟩ ∧
      dropEma (runFrom 1 0 [(1, 1)] ⟨0, 0, [], [], 0, 0, 0⟩) =
        dropEma (runFrom 1 0 [(1, 1)] ⟨0, 0, [], [], 0, 0, 5⟩)) :=
  ⟨update_ema_frame.1 ⟨[1], [2], [3]⟩ (1 / 2),
    ⟨by decide,
      update_ema_frame.2 1 0 [(1, 1)] ⟨0, 0, [], [], 0, 0, 0⟩
        ⟨0, 0, [], [], 0, 0, 5⟩ (by decide)⟩⟩

/-! Lemmas about the accumulation / step loop. -/

lemma runFrom_append (accum : ℕ) (xs ys : List (ℚ × ℚ)) :
    ∀ (i : ℕ) (s : TrainState),
      runFrom accum i (xs ++ ys) s =
        runFrom accum (i + xs.length) ys (runFrom accum i xs s) := by
  induction xs with
  | nil => intro i s; simp [runFrom]
  | cons x xs ih =>
    intro i s
    simp only [List.cons_append, runFrom, List.length_cons, List.append_eq]
    rw [ih]
    have h : i + 1 + xs.length = i + (xs.length + 1) := by omega
    rw [h]

lemma mod_window_ne_zero (accum i j : ℕ) (hi : i % accum = 0)
    (hj : j + 1 < accum) : (i + j + 1) % accum ≠ 0 := by
  obtain ⟨t, rfl⟩ := Nat.dvd_of_mod_eq_zero hi
  have e : accum * t + j + 1 = accum * t + (j + 1) := by omega
  rw [e, Nat.mul_add_mod, Nat.mod_eq_of_lt hj]
  omega

lemma runFrom_no_fire (accum : ℕ) (xs : List (ℚ × ℚ)) :
    ∀ (i : ℕ) (s : TrainState),
      (∀ j, j < xs.length → (i + j + 1) % accum ≠ 0) →
      runFrom accum i xs s =
        { s with
          grads := s.grads + (xs.map Prod.snd).sum
          totalLoss := s.totalLoss + (xs.map Prod.fst).sum / (accum : ℚ) } := by
  induction xs with
  | nil =>
    intro i s h
    simp [runFrom]
  | cons x xs ih =>
    intro i s h
    have h0 : (i + 1) % accum ≠ 0 := by
      have := h 0 (by simp)
      simpa using this
    simp only [runFrom, microStep, if_neg h0]
    rw [ih (i + 1) _ ?hj]
    case hj =>
      intro j hj
      have := h (j + 1) (by simpa using Nat.succ_lt_succ hj)
      have e : i + (j + 1) + 1 = i + 1 + j + 1 := by omega
      rwa [e] at this
    ext <;> simp [add_div] <;> ring_nf

lemma runFrom_fire_window (accum : ℕ) (ha : 0 < accum) (xs : List (ℚ × ℚ))
    (i : ℕ) (s : TrainState) (hi : i % accum = 0) (hlen : xs.length = accum) :
    runFrom accum i xs s =
      { grads := 0
        totalLoss := 0
        applied := s.applied ++ [s.grads + (xs.map Prod.snd).sum]
        reported := s.reported ++
          [s.totalLoss + (xs.map Prod.fst).sum / (accum : ℚ)]
        optSteps := s.optSteps + 1
        lrSteps := s.lrSteps + 1
        emaUpdates := s.emaUpdates + 1 } := by
  rcases List.eq_nil_or_concat xs with rfl | ⟨ys, y, rfl⟩
  · simp at hlen; omega
  · simp only [List.concat_eq_append] at hlen ⊢
    have hys : ys.length = accum - 1 := by
      simp at hlen; omega
    rw [runFrom_append accum ys [y] i s]
    rw [runFrom_no_fire accum ys i s ?hnof]
    case hnof =>
      intro j hj
      exact mod_window_ne_zero accum i j hi (by omega)
    have hc : (i + ys.length + 1) % accum = 0 := by
      obtain ⟨t, rfl⟩ := Nat.dvd_of_mod_eq_zero hi
      have e : accum * t + ys.length + 1 = accum * (t + 1) := by
        rw [hys]; ring_nf; omega
      rw [e, Nat.mul_mod_right]
    simp only [runFrom, microStep, if_pos hc]
    ext <;> simp [add_div] <;> ring_nf

lemma runFrom_windows (accum : ℕ) (ha : 0 < accum) :
    ∀ (q : ℕ) (xs : List (ℚ × ℚ)) (i : ℕ) (s : TrainState),
      i % accum = 0 → xs.length = q * accum → s.grads = 0 →
      s.totalLoss = 0 →
      (runFrom accum i xs s).grads = 0 ∧
      (runFrom accum i xs s).totalLoss = 0 ∧
      (runFrom accum i xs s).optSteps = s.optSteps + q ∧
      (runFrom accum i xs s).lrSteps = s.lrSteps + q ∧
      (runFrom accum i xs s).emaUpdates = s.emaUpdates + q ∧
      (runFrom accum i xs s).applied.length = s.applied.length + q ∧
      (runFrom accum i xs s).reported.length = s.reported.length + q := by
  intro q
  induction q with
  | zero =>
    intro xs i s hi hlen hg ht
    have hnil : xs = [] := List.eq_nil_of_length_eq_zero (by simpa using hlen)
    subst hnil
    simp [runFrom, hg, ht]
  | succ q ih =>
    intro xs i s hi hlen hg ht
    have hlen2 : accum ≤ xs.length := by
      rw [hlen, Nat.succ_mul]; omega
    have htake : (xs.take accum).length = accum := by
      rw [List.length_take]; omega
    have hdrop : (xs.drop accum).length = q * accum := by
      rw [List.length_drop, hlen, Nat.succ_mul]; omega
    have hx : xs = xs.take accum ++ xs.drop accum :=
      (List.take_append_drop accum xs).symm
    have hsplit : runFrom accum i xs s =
        runFrom accum (i + accum) (xs.drop accum)
          (runFrom accum i (xs.take accum) s) := by
      conv_lhs => rw [hx]
      rw [runFrom_append, htake]
    have hkey := runFrom_fire_window accum ha (xs.take accum) i s hi htake
    have hi2 : (i + accum) % accum = 0 := by
      simp [Nat.add_mod, hi]
    have hmid := ih (xs.drop accum) (i + accum)
      (runFrom accum i (xs.take accum) s) hi2 hdrop
      (by rw [hkey]) (by rw [hkey])
    rw [hsplit]
    refine ⟨hmid.1, hmid.2.1, ?_, ?_, ?_, ?_, ?_⟩
    · rw [hmid.2.2.1, hkey]; simp; omega
    · rw [hmid.2.2.2.1, hkey]; simp; omega
    · rw [hmid.2.2.2.2.1, hkey]; simp; omega
    · rw [hmid.2.2.2.2.2.1, hkey]; simp; omega
    · rw [hmid.2.2.2.2.2.2, hkey]; simp; omega

/-- Initial per-worker loop state at the start of training: zero
gradients, zero accumulated loss, no optimizer steps yet. -/
def trainInit : TrainState :=
  { grads := 0, totalLoss := 0, applied := [], reported := [],
    optSteps := 0, lrSteps := 0, emaUpdates := 0 }

/-! Theorems about the accumulation window (claims C3, C10, C1). -/

/-- C3: starting at a micro-batch index aligned to the accumulation
window (i.e. right after the last optimizer step), running fewer than
`accumulation_steps` micro-batches performs no optimizer step, no
learning-rate advance and no EMA update and only accumulates gradients and
loss, while running exactly `accumulation_steps` micro-batches performs
exactly one optimizer step, one learning-rate advance and one EMA update,
consumes the accumulated gradient, reports the accumulated loss once, and
resets both the gradient and the accumulated-loss scalar to zero. -/
theorem accumulation_window_schedule (accum i : ℕ) (xs : List (ℚ × ℚ))
    (s : TrainState) (ha : 0 < accum) (hi : i % accum = 0) :
    (xs.length < accum →
      runFrom accum i xs s =
        { s with
          grads := s.grads + (xs.map Prod.snd).sum
          totalLoss := s.totalLoss + (xs.map Prod.fst).sum / (accum : ℚ) }) ∧
    (xs.length = accum →
      runFrom accum i xs s =
        { grads := 0
          totalLoss := 0
          applied := s.applied ++ [s.grads + (xs.map Prod.snd).sum]
          reported := s.reported ++
            [s.totalLoss + (xs.map Prod.fst).sum / (accum : ℚ)]
          optSteps := s.optSteps + 1
          lrSteps := s.lrSteps + 1
          emaUpdates := s.emaUpdates + 1 }) := by
  constructor
  · intro hlt
    exact runFrom_no_fire accum xs i s fun j hj =>
      mod_window_ne_zero accum i j hi (by omega)
  · intro hlen
    exact runFrom_fire_window accum ha xs i s hi hlen

/-- C3 witness: with accumulation 2, running the two micro-batches
(loss 1, grad 1) and (loss 2, grad 3) from the initial state fires exactly
one optimizer step consuming gradient 4 and reporting loss 3/2. -/
theorem accumulation_window_schedule_witness :
    0 < 2 ∧ (0 : ℕ) % 2 = 0 ∧
    (([((1 : ℚ), (1 : ℚ)), ((2 : ℚ), (3 : ℚ))] : List (ℚ × ℚ)).length = 2 →
      runFrom 2 0 [((1 : ℚ), (1 : ℚ)), ((2 : ℚ), (3 : ℚ))] trainInit =
        { grads := 0
          totalLoss := 0
          applied := trainInit.applied ++
            [trainInit.grads +
              (([((1 : ℚ), (1 : ℚ)), ((2 : ℚ), (3 : ℚ))].map Prod.snd)).sum]
          reported := trainInit.reported ++
            [trainInit.totalLoss +
              (([((1 : ℚ), (1 : ℚ)), ((2 : ℚ), (3 : ℚ))].map Prod.fst)).sum /
                ((2 : ℕ) : ℚ)]
          optSteps := trainInit.optSteps + 1
          lrSteps := trainInit.lrSteps + 1
          emaUpdates := trainInit.emaUpdates + 1 }) :=
  ⟨by decide, by decide,
    (accumulation_window_schedule 2 0
        [((1 : ℚ), (1 : ℚ)), ((2 : ℚ), (3 : ℚ))] trainInit
        (by decide) (by decide)).2⟩

/-- C10: when the number of micro-batches in an epoch is not a multiple of
`accumulation_steps`, the trailing micro-batches trigger no optimizer step
(the step count for the epoch is `length / accumulation_steps`) and no
gradient zeroing — the epoch ends with the trailing gradients still
accumulated — and the trailing accumulated loss is discarded: running the
next epoch from the resulting state is indistinguishable from running it
with the accumulated-loss scalar zeroed (line 188 re-initializes
`total_loss`), the next epoch's first report contains only the new
window's losses, and the next epoch's first optimizer step consumes the
carried trailing gradients plus the new window's gradients. -/
theorem trailing_microbatches_carry_over (accum : ℕ)
    (items1 items2 : List (ℚ × ℚ)) (s : TrainState) (ha : 0 < accum)
    (hg : s.grads = 0) (hr : items1.length % accum ≠ 0)
    (h2 : items2.length = accum) :
    (runEpoch accum items1 s).optSteps =
      s.optSteps + items1.length / accum ∧
    (runEpoch accum items1 s).grads =
      ((items1.drop (items1.length / accum * accum)).map Prod.snd).sum ∧
    (runEpoch accum items1 s).totalLoss =
      ((items1.drop (items1.length / accum * accum)).map Prod.fst).sum /
        (accum : ℚ) ∧
    runEpoch accum items2 (runEpoch accum items1 s) =
      runEpoch accum items2 { runEpoch accum items1 s with totalLoss := 0 } ∧
    (runEpoch accum items2 (runEpoch accum items1 s)).applied =
      (runEpoch accum items1 s).applied ++
        [(runEpoch accum items1 s).grads + (items2.map Prod.snd).sum] ∧
    (runEpoch accum items2 (runEpoch accum items1 s)).reported =
      (runEpoch accum items1 s).reported ++
        [(items2.map Prod.fst).sum / (accum : ℚ)] := by
  have hq : items1.length / accum * accum + items1.length % accum =
      items1.length := by
    rw [Nat.mul_comm]
    exact Nat.div_add_mod items1.length accum
  have hrlt : items1.length % accum < accum := Nat.mod_lt _ ha
  have hle : items1.length / accum * accum ≤ items1.length :=
    Nat.div_mul_le_self _ _
  have htake : (items1.take (items1.length / accum * accum)).length =
      items1.length / accum * accum := by
    rw [List.length_take]; omega
  have hdrop : (items1.drop (items1.length / accum * accum)).length =
      items1.length % accum := by
    rw [List.length_drop]; omega
  have hx : items1 = items1.take (items1.length / accum * accum) ++
      items1.drop (items1.length / accum * accum) :=
    (List.take_append_drop _ _).symm
  have hsplit : runEpoch accum items1 s =
      runFrom accum (items1.length / accum * accum)
        (items1.drop (items1.length / accum * accum))
        (runFrom accum 0 (items1.take (items1.length / accum * accum))
          { s with totalLoss := 0 }) := by
    rw [runEpoch]
    conv_lhs => rw [hx]
    rw [runFrom_append]
    rw [htake, Nat.zero_add]
  have hmid := runFrom_windows accum ha (items1.length / accum)
    (items1.take (items1.length / accum * accum)) 0 { s with totalLoss := 0 }
    (Nat.zero_mod accum) (by rw [htake, Nat.mul_comm]) hg rfl
  have hnof := runFrom_no_fire accum
    (items1.drop (items1.length / accum * accum))
    (items1.length / accum * accum)
    (runFrom accum 0 (items1.take (items1.length / accum * accum))
      { s with totalLoss := 0 })
    (fun j hj => by
      refine mod_window_ne_zero accum _ j ?_ ?_
      · exact Nat.mul_mod_left _ _
      · rw [hdrop] at hj; omega)
  have hgen : ∀ X : TrainState,
      runEpoch accum items2 X = runEpoch accum items2 { X with totalLoss := 0 } ∧
      (runEpoch accum items2 X).applied =
        X.applied ++ [X.grads + (items2.map Prod.snd).sum] ∧
      (runEpoch accum items2 X).reported =
        X.reported ++ [(items2.map Prod.fst).sum / (accum : ℚ)] := by
    intro X
    refine ⟨rfl, ?_, ?_⟩ <;>
      rw [runEpoch,
        runFrom_fire_window accum ha items2 0 _ (Nat.zero_mod accum) h2] <;>
      simp
  refine ⟨?_, ?_, ?_, (hgen _).1, (hgen _).2.1, (hgen _).2.2⟩
  · rw [hsplit, hnof]
    exact hmid.2.2.1
  · rw [hsplit, hnof]
    show (runFrom accum 0 (items1.take (items1.length / accum * accum))
        { s with totalLoss := 0 }).grads +
      ((items1.drop (items1.length / accum * accum)).map Prod.snd).sum = _
    rw [hmid.1, zero_add]
  · rw [hsplit, hnof]
    show (runFrom accum 0 (items1.take (items1.length / accum * accum))
        { s with totalLoss := 0 }).totalLoss +
      ((items1.drop (items1.length / accum * accum)).map Prod.fst).sum /
        (accum : ℚ) = _
    rw [hmid.2.1, zero_add]

/-- C10 witness: accumulation 2, a first epoch of three micro-batches
(one complete window plus one trailing micro-batch with loss 3 and
gradient 5) followed by a second epoch window of two micro-batches. -/
theorem trailing_microbatches_carry_over_witness :
    0 < 2 ∧ trainInit.grads = 0 ∧
    ([((1 : ℚ), (1 : ℚ)), ((2 : ℚ), (1 : ℚ)), ((3 : ℚ), (5 : ℚ))] :
      List (ℚ × ℚ)).length % 2 ≠ 0 ∧
    ([((4 : ℚ), (2 : ℚ)), ((6 : ℚ), (2 : ℚ))] : List (ℚ × ℚ)).length = 2 ∧
    (runEpoch 2 [((1 : ℚ), (1 : ℚ)), ((2 : ℚ), (1 : ℚ)), ((3 : ℚ), (5 : ℚ))]
        trainInit).optSteps = trainInit.optSteps + 3 / 2 ∧
    (runEpoch 2 [((1 : ℚ), (1 : ℚ)), ((2 : ℚ), (1 : ℚ)), ((3 : ℚ), (5 : ℚ))]
        trainInit).grads = (5 : ℚ) ∧
    (runEpoch 2 [((4 : ℚ), (2 : ℚ)), ((6 : ℚ), (2 : ℚ))]
        (runEpoch 2
          [((1 : ℚ), (1 : ℚ)), ((2 : ℚ), (1 : ℚ)), ((3 : ℚ), (5 : ℚ))]
          trainInit)).applied =
      (runEpoch 2 [((1 : ℚ), (1 : ℚ)), ((2 : ℚ), (1 : ℚ)), ((3 : ℚ), (5 : ℚ))]
          trainInit).applied ++
        [(runEpoch 2
            [((1 : ℚ), (1 : ℚ)), ((2 : ℚ), (1 : ℚ)), ((3 : ℚ), (5 : ℚ))]
            trainInit).grads +
          (([((4 : ℚ), (2 : ℚ)), ((6 : ℚ), (2 : ℚ))].map Prod.snd)).sum] := by
  refine ⟨by decide, by decide, by decide, by decide, ?_, ?_, ?_⟩
  · exact (trailing_microbatches_carry_over 2
      [((1 : ℚ), (1 : ℚ)), ((2 : ℚ), (1 : ℚ)), ((3 : ℚ), (5 : ℚ))]
      [((4 : ℚ), (2 : ℚ)), ((6 : ℚ), (2 : ℚ))] trainInit
      (by decide) (by decide) (by decide) (by decide)).1
  · have h := (trailing_microbatches_carry_over 2
      [((1 : ℚ), (1 : ℚ)), ((2 : ℚ), (1 : ℚ)), ((3 : ℚ), (5 : ℚ))]
      [((4 : ℚ), (2 : ℚ)), ((6 : ℚ), (2 : ℚ))] trainInit
      (by decide) (by decide) (by decide) (by decide)).2.1
    rw [h]; norm_num
  · exact (trailing_microbatches_carry_over 2
      [((1 : ℚ), (1 : ℚ)), ((2 : ℚ), (1 : ℚ)), ((3 : ℚ), (5 : ℚ))]
      [((4 : ℚ), (2 : ℚ)), ((6 : ℚ), (2 : ℚ))] trainInit
      (by decide) (by decide) (by decide) (by decide)).2.2.2.2.1

/-- C1 counterexample: in a world of 4 workers with sequence-parallel
size 2 (sharding groups {0,2} and {1,3} per the spec's orthogonal
topology), per-worker accumulated scalars [1, 5, 3, 3] make the code's
reduction (`all_reduce_mean` over the default world group, dividing by the
full world size) report 3 on every worker, while the claimed
sharding-group-only mean would report 2 on worker 0 — so the reported
step loss is not the mean across the sharding-group workers only. -/
theorem loss_not_reduced_over_sharding_group_only :
    all_reduce_mean [1, 5, 3, 3] = [3, 3, 3, 3] ∧
    spec_sharding_group_mean 2 [1, 5, 3, 3] = [2, 4, 2, 4] ∧
    all_reduce_mean [1, 5, 3, 3] ≠ spec_sharding_group_mean 2 [1, 5, 3, 3] := by
  have hrange : List.range ([(1 : ℚ), 5, 3, 3].length) = [0, 1, 2, 3] := by
    decide
  have h1 : all_reduce_mean [1, 5, 3, 3] = [3, 3, 3, 3] := by
    norm_num [all_reduce_mean]
  have f0 : List.filter (fun q => q % 2 == 0 % 2) [0, 1, 2, 3] = [0, 2] := by
    decide
  have f1 : List.filter (fun q => q % 2 == 1 % 2) [0, 1, 2, 3] = [1, 3] := by
    decide
  have f2 : List.filter (fun q => q % 2 == 2 % 2) [0, 1, 2, 3] = [0, 2] := by
    decide
  have f3 : List.filter (fun q => q % 2 == 3 % 2) [0, 1, 2, 3] = [1, 3] := by
    decide
  have h2 : spec_sharding_group_mean 2 [1, 5, 3, 3] = [2, 4, 2, 4] := by
    simp only [spec_sharding_group_mean, hrange]
    simp only [List.map_cons, List.map_nil, f0, f1, f2, f3]
    norm_num
  refine ⟨h1, h2, ?_⟩
  rw [h1, h2]
  norm_num

/-- C1 amended: the loss reported per optimizer step is the accumulated
mean of the per-micro-batch losses over the accumulation window, handed to
the reduction exactly once per optimizer step (the `reported` trace grows
by exactly one entry, the accumulated scalar, per window), and
`all_reduce_mean` mean-reduces it across *all* workers of the default
(world) process group, dividing the summed scalar by the full world size;
when the 4-worker sharding group is the entire world (sp_size = 1) the
per-worker losses [1.0, 2.0, 3.0, 4.0] give reported step loss 2.5 on
every worker, and the world mean agrees with the sharding-group-only mean
whenever sequence-parallel peers hold equal scalars, e.g. [1, 1, 3, 3]
with sequence-parallel size 2. -/
theorem loss_reduction_once_per_step_world_mean (accum i : ℕ)
    (xs : List (ℚ × ℚ)) (s : TrainState) (ha : 0 < accum)
    (hi : i % accum = 0) (hlen : xs.length = accum) :
    (runFrom accum i xs s).reported =
      s.reported ++ [s.totalLoss + (xs.map Prod.fst).sum / (accum : ℚ)] ∧
    all_reduce_mean [1, 2, 3, 4] = [5 / 2, 5 / 2, 5 / 2, 5 / 2] ∧
    all_reduce_mean [1, 1, 3, 3] = spec_sharding_group_mean 2 [1, 1, 3, 3] := by
  refine ⟨?_, ?_, ?_⟩
  · rw [runFrom_fire_window accum ha xs i s hi hlen]
  · norm_num [all_reduce_mean]
  · have hrange : List.range ([(1 : ℚ), 1, 3, 3].length) = [0, 1, 2, 3] := by
      decide
    have f0 : List.filter (fun q => q % 2 == 0 % 2) [0, 1, 2, 3] = [0, 2] := by
      decide
    have f1 : List.filter (fun q => q % 2 == 1 % 2) [0, 1, 2, 3] = [1, 3] := by
      decide
    have f2 : List.filter (fun q => q % 2 == 2 % 2) [0, 1, 2, 3] = [0, 2] := by
      decide
    have f3 : List.filter (fun q => q % 2 == 3 % 2) [0, 1, 2, 3] = [1, 3] := by
      decide
    have hl : all_reduce_mean [1, 1, 3, 3] = [2, 2, 2, 2] := by
      norm_num [all_reduce_mean]
    have hr2 : spec_sharding_group_mean 2 [1, 1, 3, 3] = [2, 2, 2, 2] := by
      simp only [spec_sharding_group_mean, hrange]
      simp only [List.map_cons, List.map_nil, f0, f1, f2, f3]
      norm_num
    rw [hl, hr2]

/-- C1 witness: with accumulation 1, the single micro-batch (loss 2,
grad 0) starting from the initial state reports exactly one accumulated
scalar. -/
theorem loss_reduction_once_per_step_world_mean_witness :
    0 < 1 ∧ (0 : ℕ) % 1 = 0 ∧
    ([((2 : ℚ), (0 : ℚ))] : List (ℚ × ℚ)).length = 1 ∧
    ((runFrom 1 0 [((2 : ℚ), (0 : ℚ))] trainInit).reported =
      trainInit.reported ++
        [trainInit.totalLoss +
          (([((2 : ℚ), (0 : ℚ))].map Prod.fst)).sum / ((1 : ℕ) : ℚ)] ∧
    all_reduce_mean [1, 2, 3, 4] = [5 / 2, 5 / 2, 5 / 2, 5 / 2] ∧
    all_reduce_mean [1, 1, 3, 3] = spec_sharding_group_mean 2 [1, 1, 3, 3]) :=
  ⟨by decide, by decide, by decide,
    loss_reduction_once_per_step_world_mean 1 0 [((2 : ℚ), (0 : ℚ))]
      trainInit (by decide) (by decide) (by decide)⟩

end OpenSoraTrain
